import Mathlib

set_option maxRecDepth 100000
set_option maxHeartbeats 4000000

/-!
Verification development for the bf2-migrator provider-fingerprinting and
binary-patching engine.

The Go sources are shallowly embedded as executable Lean definitions:

* byte buffers are `List Nat` (one `Nat` per byte);
* `pkg/patch` (package `patch`): `padRight`, `ContainsAll`,
  `determineCurrentlyUsedProvider`, `Patch`, and the per-rule loop body of
  `Patch` (factored as `applyModifications`);
* Go's `bytes.Count` / `bytes.ReplaceAll` / `bytes.Contains` for the
  non-empty separators used by the engine are embedded as `countOcc`,
  `replaceAll`, `containsB` (non-overlapping, left-to-right semantics,
  exactly as the Go standard library behaves for non-empty separators);
* `internal/patchable`: `GameExecutable` and `ServerExecutable`, their
  fingerprint tables and `GetModifications`;
* the process-quiescence wait loop `waitForProcessesToExit` from the gui
  package, with the live-process table abstracted as a function from
  (poll iteration, pid) to "still found running".

Go maps (`map[Provider]Fingerprint`) are embedded as association lists in
source declaration order; Go iterates maps in unspecified order, and the
spots where that matters are called out at the relevant theorems.
File-system effects of `Patch` are represented by the function
`patchedContent`, which yields the on-disk bytes after a call: the Go code
performs its single `WriteAt` only on the success path, so on every error
path the on-disk content is the pre-call content.
-/

/-- Bytes of an ASCII string literal, as Go's `[]byte(s)` conversion. -/
def strBytes (s : String) : List Nat :=
  s.data.map Char.toNat

/-- Does the buffer start with the given pattern? (Helper for the embeddings
of Go's `bytes` functions.) -/
def hasPrefixB (s p : List Nat) : Bool :=
  (List.rec (motive := fun _ => List Nat → Bool)
    (fun _ => true)
    (fun c _ ih t => List.casesOn t false (fun b bs => b == c && ih bs)) p) s

/-- Go's `bytes.Contains(s, pat)`: is `pat` a contiguous sub-sequence of `s`? -/
def containsB : List Nat → List Nat → Bool :=
  fun s pat =>
    (List.rec (motive := fun _ => List Nat → Bool)
      (fun _ => pat.isEmpty)
      (fun _ bs ih t => hasPrefixB t pat || ih bs) s) s

/-- Fuelled worker for `countOcc`; the fuel only bounds recursion depth and
is always at least the buffer length at every call. -/
def countOccAux (pat : List Nat) (fuel : Nat) : List Nat → Nat :=
  Nat.rec (motive := fun _ => List Nat → Nat)
    (fun _ => 0)
    (fun _ ih s =>
      List.casesOn s 0 (fun _ bs =>
        cond (hasPrefixB s pat)
          (1 + ih (List.drop (pat.length - 1) bs))
          (ih bs))) fuel

/-- Go's `bytes.Count(s, pat)` for the non-empty patterns this engine uses:
the number of non-overlapping, left-to-right occurrences of `pat` in `s`.
(Go defines the empty-separator case as 1 + the rune count; every padded
`Old` pattern in this program is non-empty, so that case never arises and is
given the same 1 + length value for byte-sized runes.) -/
def countOcc (s pat : List Nat) : Nat :=
  if pat.isEmpty then s.length + 1 else countOccAux pat s.length s

/-- Fuelled worker for `replaceAll`; fuel is always at least the buffer
length at every call. -/
def replaceAllAux (pat rep : List Nat) (fuel : Nat) : List Nat → List Nat :=
  Nat.rec (motive := fun _ => List Nat → List Nat)
    (fun s => s)
    (fun _ ih s =>
      List.casesOn s [] (fun b bs =>
        cond (hasPrefixB s pat)
          (rep ++ ih (List.drop (pat.length - 1) bs))
          (b :: ih bs))) fuel

/-- Go's `bytes.ReplaceAll(s, pat, rep)` for the non-empty patterns this
engine uses: replace all non-overlapping, left-to-right occurrences.
(The empty-pattern case, never exercised here, is modelled as the identity.) -/
def replaceAll (s pat rep : List Nat) : List Nat :=
  if pat.isEmpty then s else replaceAllAux pat rep s.length s

/-- Embedding of `padRight` from the patch package: right-pad `b` with byte `c` up to
length `l`; a buffer already at least `l` long is returned unchanged. -/
def padRight (b : List Nat) (c : Nat) (l : Nat) : List Nat :=
  if l ≤ b.length then b else b ++ List.replicate (l - b.length) c

/-- Embedding of `ContainsAll` from the patch package: every sub-sequence in `bbs` occurs
in `b`. -/
def ContainsAll (b : List Nat) (bbs : List (List Nat)) : Bool :=
  bbs.all (fun bb => containsB b bb)

/-- Go `type Provider string`. -/
abbrev Provider := String

/-- The `ProviderUnknown` sentinel. -/
def ProviderUnknown : Provider := "unknown"

/-- One substitution rule (`patch.Modification`). Go's `int` fields `Length`
and `Count` only ever hold non-negative values in this program, so they are
embedded as `Nat`. -/
structure Modification where
  Old : List Nat
  New : List Nat
  Length : Nat
  Count : Nat
deriving DecidableEq, Repr

/-- The `patch.Patchable` interface: a file name, a fingerprint table
(association list standing in for the Go map, in source declaration order;
each fingerprint is its `Matches` predicate), and a modification builder. -/
structure Patchable where
  GetFileName : String
  GetFingerprints : List (Provider × (List Nat → Bool))
  GetModifications : Provider → Provider → Except String (List Modification)

/-- Error message of the occurrence-count check in `Patch`. -/
def occurrenceMismatchMsg : String :=
  "binary contains unknown modifications, revert changes first"

/-- Error message of the post-substitution length check in `Patch`. -/
def lengthMismatchMsg : String :=
  "length of modified binary does not match length of original"

/-- Error message of `determineCurrentlyUsedProvider` when no fingerprint
matches. -/
def unknownProviderMsg : String :=
  "binary contains unknown/mixed modifications, revert changes first"

/-- Embedding of `determineCurrentlyUsedProvider`: return the first provider whose
fingerprint matches, or `(ProviderUnknown, some error)` when none does.
Go iterates the fingerprint map in unspecified order; the embedding fixes
the association-list order. -/
def determineCurrentlyUsedProvider (b : List Nat) :
    List (Provider × (List Nat → Bool)) → Provider × Option String
  | [] => (ProviderUnknown, some unknownProviderMsg)
  | (provider, fingerprint) :: rest =>
    if fingerprint b then (provider, none)
    else determineCurrentlyUsedProvider b rest

/-- The per-rule loop of `Patch`: for each modification, pad `Old` and `New`
with null bytes to the declared length, verify the occurrence count of the
padded `Old` in the current buffer, and replace all of its occurrences. -/
def applyModifications : List Modification → List Nat → Except String (List Nat)
  | [], modified => .ok modified
  | m :: rest, modified =>
    let o := padRight m.Old 0 m.Length
    let n := padRight m.New 0 m.Length
    if countOcc modified o ≠ m.Count then .error occurrenceMismatchMsg
    else applyModifications rest (replaceAll modified o n)

/-- Outcome of a successful `Patch` call: either the binary was already in
the requested state (no write happens), or the rewritten content was
written back. -/
inductive PatchOutcome
  | noop
  | patched (modified : List Nat)
deriving DecidableEq, Repr

/-- Embedding of `patch.Patch`, with the file system abstracted away: `content` is the
byte content read from the target file, and a `.patched` result is the
content handed to the single `WriteAt` call. Every `.error` and the `.noop`
result return before that write. -/
def Patch (patchable : Patchable) (content : List Nat) (new : Provider) :
    Except String PatchOutcome :=
  match determineCurrentlyUsedProvider content patchable.GetFingerprints with
  | (_, some e) => .error e
  | (old, none) =>
    if new = old then .ok .noop
    else
      match patchable.GetModifications old new with
      | .error e => .error e
      | .ok modifications =>
        match applyModifications modifications content with
        | .error e => .error e
        | .ok modified =>
          if modified.length ≠ content.length then .error lengthMismatchMsg
          else .ok (.patched modified)

/-- On-disk bytes after a `Patch` call on a file holding `content`: the Go
code writes only on the `.patched` success path, so every other outcome
leaves the pre-call bytes. -/
def patchedContent (patchable : Patchable) (content : List Nat) (new : Provider) :
    List Nat :=
  match Patch patchable content new with
  | .ok (.patched modified) => modified
  | _ => content

/-- Does every rule's observed occurrence count (in the sequentially updated
buffer, exactly as the `Patch` loop sees it) equal its expected `Count`? -/
def countsOk : List Modification → List Nat → Bool
  | [], _ => true
  | m :: rest, modified =>
    let o := padRight m.Old 0 m.Length
    let n := padRight m.New 0 m.Length
    countOcc modified o == m.Count && countsOk rest (replaceAll modified o n)

/-- Provider constants from the patchable package. -/
def ProviderBF2Hub : Provider := "BF2Hub"

/-- Provider constant for PlayBF2. -/
def ProviderPlayBF2 : Provider := "PlayBF2"

/-- Provider constant for OpenSpy. -/
def ProviderOpenSpy : Provider := "OpenSpy"

/-- Provider constant for GameSpy. -/
def ProviderGameSpy : Provider := "GameSpy"

/-- Fingerprint record for the game executable (`gameExecutableFingerprint`). -/
structure gameExecutableFingerprint where
  Hostname : List Nat
  HostsPath : List Nat
  Additional : List (List Nat) := []
deriving DecidableEq, Repr

/-- Embedding of `gameExecutableFingerprint.Matches`: all ridges — the additional markers
plus hostname and hosts path — must be present. -/
def gameExecutableFingerprint.Matches (f : gameExecutableFingerprint) (b : List Nat) : Bool :=
  ContainsAll b (f.Additional ++ [f.Hostname, f.HostsPath])

/-- The game executable's fingerprint table (`GameExecutable.getFingerprints`),
in source declaration order. -/
def gameGetFingerprints : List (Provider × gameExecutableFingerprint) :=
  [ (ProviderBF2Hub,
      { Hostname := strBytes "gamespy.com",
        HostsPath := strBytes "\\drivers\\xtc\\hosts",
        Additional := [strBytes "bf2hbc.dll"] }),
    (ProviderPlayBF2,
      { Hostname := strBytes "playbf2.ru",
        HostsPath := strBytes "\\drivers\\etc\\hasts" }),
    (ProviderOpenSpy,
      { Hostname := strBytes "openspy.net",
        HostsPath := strBytes "\\drivers\\etz\\hosts" }),
    (ProviderGameSpy,
      { Hostname := strBytes "gamespy.com",
        HostsPath := strBytes "\\drivers\\etc\\hosts" }) ]

/-- Embedding of `GameExecutable.GetModifications`: the nine baseline hostname rules, the
direction-sensitive master-server rule, and the BF2Hub-specific dll swaps. -/
def gameGetModifications (old new : Provider) : Except String (List Modification) :=
  match gameGetFingerprints.lookup old with
  | none => .error ("missing fingerprint for old provider: " ++ old)
  | some wipe =>
    match gameGetFingerprints.lookup new with
    | none =>
      -- The Go source formats this message with `old`, not `new`
      .error ("missing fingerprint for new provider: " ++ old)
    | some apply =>
      let modifications : List Modification :=
        [ { Old := wipe.HostsPath, New := apply.HostsPath, Length := 18, Count := 1 },
          { Old := strBytes "gamestats." ++ wipe.Hostname,
            New := strBytes "gamestats." ++ apply.Hostname, Length := 21, Count := 2 },
          { Old := strBytes "http://stage-net." ++ wipe.Hostname ++ strBytes "/bf2/getplayerinfo.aspx?pid=",
            New := strBytes "http://stage-net." ++ apply.Hostname ++ strBytes "/bf2/getplayerinfo.aspx?pid=",
            Length := 56, Count := 1 },
          { Old := strBytes "BF2Web." ++ wipe.Hostname,
            New := strBytes "BF2Web." ++ apply.Hostname, Length := 19, Count := 1 },
          { Old := strBytes "http://BF2Web." ++ wipe.Hostname ++ strBytes "/ASP/",
            New := strBytes "http://BF2Web." ++ apply.Hostname ++ strBytes "/ASP/",
            Length := 30, Count := 1 },
          { Old := strBytes "%s.available." ++ wipe.Hostname,
            New := strBytes "%s.available." ++ apply.Hostname, Length := 24, Count := 1 },
          { Old := strBytes "%s.master." ++ wipe.Hostname,
            New := strBytes "%s.master." ++ apply.Hostname, Length := 21, Count := 1 },
          { Old := strBytes "gpcm." ++ wipe.Hostname,
            New := strBytes "gpcm." ++ apply.Hostname, Length := 16, Count := 1 },
          { Old := strBytes "gpsp." ++ wipe.Hostname,
            New := strBytes "gpsp." ++ apply.Hostname, Length := 16, Count := 1 } ]
      let modifications := modifications ++
        (if old = ProviderPlayBF2 then
          [ { Old := strBytes "%s.ms." ++ wipe.Hostname,
              New := strBytes "%s.ms%d." ++ apply.Hostname, Length := 19, Count := 1 } ]
        else if new = ProviderPlayBF2 then
          [ { Old := strBytes "%s.ms%d." ++ wipe.Hostname,
              New := strBytes "%s.ms." ++ apply.Hostname, Length := 19, Count := 1 } ]
        else
          [ { Old := strBytes "%s.ms%d." ++ wipe.Hostname,
              New := strBytes "%s.ms%d." ++ apply.Hostname, Length := 19, Count := 1 } ])
      let modifications := modifications ++
        (if old = ProviderBF2Hub then
          [ { Old := strBytes "bf2hbc.dll", New := strBytes "WS2_32.dll",
              Length := 10, Count := 1 } ]
        else [])
      let modifications := modifications ++
        (if new = ProviderBF2Hub then
          [ { Old := strBytes "WS2_32.dll", New := strBytes "bf2hbc.dll",
              Length := 10, Count := 1 } ]
        else [])
      .ok modifications

/-- The game executable's fingerprint table as handed to the patch engine
(`GameExecutable.GetFingerprints`). -/
def gameFingerprintTable : List (Provider × (List Nat → Bool)) :=
  gameGetFingerprints.map (fun pf => (pf.1, pf.2.Matches))

/-- The `GameExecutable` patchable. -/
def GameExecutable : Patchable :=
  { GetFileName := "BF2.exe",
    GetFingerprints := gameFingerprintTable,
    GetModifications := gameGetModifications }

/-- Fingerprint record for the server executable
(`serverExecutableFingerprint`). -/
structure serverExecutableFingerprint where
  Hostname : List Nat
  DLLName : List Nat
deriving DecidableEq, Repr

/-- Embedding of `serverExecutableFingerprint.Matches`: hostname and dll name must both be
present. -/
def serverExecutableFingerprint.Matches (f : serverExecutableFingerprint) (b : List Nat) : Bool :=
  ContainsAll b [f.Hostname, f.DLLName]

/-- The server executable's fingerprint table
(`ServerExecutable.getFingerprints`), in source declaration order. -/
def serverGetFingerprints : List (Provider × serverExecutableFingerprint) :=
  [ (ProviderBF2Hub,
      { Hostname := strBytes "gamespy.com", DLLName := strBytes "bf2hub.dll" }),
    (ProviderPlayBF2,
      { Hostname := strBytes "playbf2.ru", DLLName := strBytes "WS2_32.dll" }),
    (ProviderOpenSpy,
      { Hostname := strBytes "openspy.net", DLLName := strBytes "WS2_32.dll" }),
    (ProviderGameSpy,
      { Hostname := strBytes "gamespy.com", DLLName := strBytes "WS2_32.dll" }) ]

/-- Embedding of `ServerExecutable.GetModifications`: the seven rules, all symmetric in
shape, including the dll-name swap. -/
def serverGetModifications (old new : Provider) : Except String (List Modification) :=
  match serverGetFingerprints.lookup old with
  | none => .error ("missing fingerprint for old provider: " ++ old)
  | some wipe =>
    match serverGetFingerprints.lookup new with
    | none =>
      -- The Go source formats this message with `old`, not `new`
      .error ("missing fingerprint for new provider: " ++ old)
    | some apply =>
      .ok
        [ { Old := strBytes "BF2Web." ++ wipe.Hostname,
            New := strBytes "BF2Web." ++ apply.Hostname, Length := 19, Count := 1 },
          { Old := strBytes "http://BF2Web." ++ wipe.Hostname ++ strBytes "/ASP/",
            New := strBytes "http://BF2Web." ++ apply.Hostname ++ strBytes "/ASP/",
            Length := 30, Count := 1 },
          { Old := strBytes "gamestats." ++ wipe.Hostname,
            New := strBytes "gamestats." ++ apply.Hostname, Length := 21, Count := 2 },
          { Old := strBytes "http://stage-net." ++ wipe.Hostname ++ strBytes "/bf2/getplayerinfo.aspx?pid=",
            New := strBytes "http://stage-net." ++ apply.Hostname ++ strBytes "/bf2/getplayerinfo.aspx?pid=",
            Length := 56, Count := 1 },
          { Old := strBytes "%s.available." ++ wipe.Hostname,
            New := strBytes "%s.available." ++ apply.Hostname, Length := 24, Count := 1 },
          { Old := strBytes "%s.master." ++ wipe.Hostname,
            New := strBytes "%s.master." ++ apply.Hostname, Length := 21, Count := 1 },
          { Old := wipe.DLLName, New := apply.DLLName, Length := 10, Count := 1 } ]

/-- The server executable's fingerprint table as handed to the patch engine. -/
def serverFingerprintTable : List (Provider × (List Nat → Bool)) :=
  serverGetFingerprints.map (fun pf => (pf.1, pf.2.Matches))

/-- The `ServerExecutable` patchable. -/
def ServerExecutable : Patchable :=
  { GetFileName := "bf2_w32ded.exe",
    GetFingerprints := serverFingerprintTable,
    GetModifications := serverGetModifications }

/-- Worker for `waitForProcessesToExit`. `budget` is the number of loop
iterations still allowed (the Go loop runs while the pending map is
non-empty and fewer than five iterations have happened), `it` the current
iteration index, `pending` the pids of killed processes not yet seen to
exit. `alive it pid` abstracts the `ps.FindProcess` poll: `true` when the
process table still lists `pid` during poll `it`. Returns the surviving
pending set and the number of polls performed. The 1-second sleep between
polls is real time and outside this model. -/
def waitLoopAux (alive : Nat → Nat → Bool) : Nat → Nat → List Nat → List Nat × Nat
  | 0, it, pending => (pending, it)
  | budget + 1, it, pending =>
    if pending.isEmpty then (pending, it)
    else waitLoopAux alive budget (it + 1) (pending.filter (fun pid => alive it pid))

/-- Embedding of `waitForProcessesToExit` from the gui package: up to five polls of the
process table, then an error carrying the still-pending pids if any
survive. (The `ps.FindProcess` I/O-failure path is outside this model:
`alive` is total.) -/
def waitForProcessesToExit (alive : Nat → Nat → Bool) (pending : List Nat) :
    Except (List Nat) Unit :=
  let r := waitLoopAux alive 5 0 pending
  if r.1.isEmpty then .ok () else .error r.1

/-- The four providers configured in the patchable package's tables. -/
inductive KnownProvider
  | bf2hub
  | playbf2
  | openspy
  | gamespy
deriving DecidableEq, Fintype, Repr

/-- The `Provider` string of a known provider. -/
def KnownProvider.name : KnownProvider → Provider
  | .bf2hub => ProviderBF2Hub
  | .playbf2 => ProviderPlayBF2
  | .openspy => ProviderOpenSpy
  | .gamespy => ProviderGameSpy

/-- The two patchable executable kinds. -/
inductive PatchTarget
  | game
  | server
deriving DecidableEq, Fintype, Repr

/-- The patchable of a target. -/
def targetPatchable : PatchTarget → Patchable
  | .game => GameExecutable
  | .server => ServerExecutable

/-- The game fingerprint record of a known provider (table lookup; the
default is never reached since all four providers are in the table). -/
def gameFingerprintOf (k : KnownProvider) : gameExecutableFingerprint :=
  match gameGetFingerprints.lookup k.name with
  | some f => f
  | none => { Hostname := [], HostsPath := [] }

/-- The server fingerprint record of a known provider. -/
def serverFingerprintOf (k : KnownProvider) : serverExecutableFingerprint :=
  match serverGetFingerprints.lookup k.name with
  | some f => f
  | none => { Hostname := [], DLLName := [] }

/-- The ridge byte-sequences a target's fingerprint checks for a known
provider, in the order `Matches` checks them. -/
def targetRidges : PatchTarget → KnownProvider → List (List Nat)
  | .game, k =>
    (gameFingerprintOf k).Additional ++
      [(gameFingerprintOf k).Hostname, (gameFingerprintOf k).HostsPath]
  | .server, k =>
    [(serverFingerprintOf k).Hostname, (serverFingerprintOf k).DLLName]

/-- Interleave junk segments between byte-sequences: a buffer holding every
element of `rs` as a contiguous run, at offsets dictated by the junk list. -/
def scatter : List (List Nat) → List (List Nat) → List Nat
  | [], js => js.flatten
  | r :: rs, [] => r ++ scatter rs []
  | r :: rs, j :: js => j ++ r ++ scatter rs js

/-- The padded literal instantiations present in a game binary that is in
provider `k`'s state: each rule literal of `GameExecutable.GetModifications`
repeated per its expected count, padded to the rule length, plus the
provider's variant of the direction-sensitive master-server string and its
dll marker. -/
def gameStateLiterals (k : KnownProvider) : List (List Nat) :=
  let f := gameFingerprintOf k
  [ padRight f.HostsPath 0 18,
    padRight (strBytes "gamestats." ++ f.Hostname) 0 21,
    padRight (strBytes "gamestats." ++ f.Hostname) 0 21,
    padRight (strBytes "http://stage-net." ++ f.Hostname ++ strBytes "/bf2/getplayerinfo.aspx?pid=") 0 56,
    padRight (strBytes "BF2Web." ++ f.Hostname) 0 19,
    padRight (strBytes "http://BF2Web." ++ f.Hostname ++ strBytes "/ASP/") 0 30,
    padRight (strBytes "%s.available." ++ f.Hostname) 0 24,
    padRight (strBytes "%s.master." ++ f.Hostname) 0 21,
    padRight (strBytes "gpcm." ++ f.Hostname) 0 16,
    padRight (strBytes "gpsp." ++ f.Hostname) 0 16,
    (if k = .playbf2 then padRight (strBytes "%s.ms." ++ f.Hostname) 0 19
     else padRight (strBytes "%s.ms%d." ++ f.Hostname) 0 19),
    (if k = .bf2hub then strBytes "bf2hbc.dll" else strBytes "WS2_32.dll") ]

/-- The padded literal instantiations present in a server binary in provider
`k`'s state. -/
def serverStateLiterals (k : KnownProvider) : List (List Nat) :=
  let f := serverFingerprintOf k
  [ padRight (strBytes "BF2Web." ++ f.Hostname) 0 19,
    padRight (strBytes "http://BF2Web." ++ f.Hostname ++ strBytes "/ASP/") 0 30,
    padRight (strBytes "gamestats." ++ f.Hostname) 0 21,
    padRight (strBytes "gamestats." ++ f.Hostname) 0 21,
    padRight (strBytes "http://stage-net." ++ f.Hostname ++ strBytes "/bf2/getplayerinfo.aspx?pid=") 0 56,
    padRight (strBytes "%s.available." ++ f.Hostname) 0 24,
    padRight (strBytes "%s.master." ++ f.Hostname) 0 21,
    f.DLLName ]

/-- A synthetic buffer in provider `k`'s state for a target: the
concatenation of that state's padded literals, with every rule's expected
occurrence count realised exactly. -/
def stateBuf : PatchTarget → KnownProvider → List Nat
  | .game, k => (gameStateLiterals k).flatten
  | .server, k => (serverStateLiterals k).flatten

/-- Does patching `stateBuf t A` to provider `B` and patching the result
back to provider `A` reproduce the original buffer byte for byte? -/
def roundTrips (t : PatchTarget) (A B : KnownProvider) : Bool :=
  match Patch (targetPatchable t) (stateBuf t A) B.name with
  | .ok (.patched mid) =>
    match Patch (targetPatchable t) mid A.name with
    | .ok (.patched back) => back == stateBuf t A
    | _ => false
  | _ => false

/-- Does patching the synthetic state buffer of provider `A` to provider `B`
produce exactly the synthetic state buffer of provider `B` (with a real
write, i.e. a `.patched` outcome)? -/
def patchesTo (t : PatchTarget) (A B : KnownProvider) : Bool :=
  match Patch (targetPatchable t) (stateBuf t A) B.name with
  | .ok (.patched mid) => mid == stateBuf t B
  | _ => false

/-- The modification list of a builder result, `[]` on error (used to name
concrete modification lists in witnesses). -/
def okMods (e : Except String (List Modification)) : List Modification :=
  match e with
  | .ok l => l
  | .error _ => []

/-- If `countsOk` fails then the rule loop aborts with the
occurrence-mismatch error. -/
theorem countsOk_false_iff (ms : List Modification) (buf : List Nat) :
    countsOk ms buf = false ↔ applyModifications ms buf = .error occurrenceMismatchMsg := by
  induction ms generalizing buf with
  | nil => simp [countsOk, applyModifications]
  | cons m rest ih =>
    by_cases h : countOcc buf (padRight m.Old 0 m.Length) = m.Count
    · simp [countsOk, applyModifications, h, ih]
    · simp [countsOk, applyModifications, h]

/-- If `countsOk` holds then the rule loop succeeds. -/
theorem countsOk_true_iff (ms : List Modification) (buf : List Nat) :
    countsOk ms buf = true ↔ ∃ r, applyModifications ms buf = .ok r := by
  induction ms generalizing buf with
  | nil => simp [countsOk, applyModifications]
  | cons m rest ih =>
    by_cases h : countOcc buf (padRight m.Old 0 m.Length) = m.Count
    · simp [countsOk, applyModifications, h, ih]
    · simp [countsOk, applyModifications, h]

/-- The rule loop only ever fails with the occurrence-mismatch error. -/
theorem applyModifications_error_eq (ms : List Modification) (buf : List Nat)
    (e : String) (h : applyModifications ms buf = .error e) :
    e = occurrenceMismatchMsg ∧ countsOk ms buf = false := by
  rcases hc : countsOk ms buf with _ | _
  · exact ⟨by rw [(countsOk_false_iff ms buf).mp hc] at h; exact (Except.error.inj h).symm, rfl⟩
  · rcases (countsOk_true_iff ms buf).mp hc with ⟨r, hr⟩
    rw [hr] at h
    exact absurd h (by simp)

/-- A `.patched` result of `Patch` always has the original content's length
(the length guard runs before the write). -/
theorem Patch_patched_length (p : Patchable) (content : List Nat)
    (np : Provider) (m : List Nat)
    (h : Patch p content np = .ok (.patched m)) : m.length = content.length := by
  unfold Patch at h
  split at h
  · simp at h
  · split at h
    · simp at h
    · split at h
      · simp at h
      · split at h
        · simp at h
        · next modified happ =>
          split at h
          next hlen => simp at h
          next hlen =>
            obtain rfl : modified = m := by simpa using h
            simpa using hlen

/-- Reduction of `Patch` past a successful detection with a different target
provider and a successful modification build. -/
theorem Patch_reduce (p : Patchable) (content : List Nat)
    (np old : Provider) (mods : List Modification)
    (hdet : determineCurrentlyUsedProvider content p.GetFingerprints = (old, none))
    (hne : np ≠ old)
    (hmods : p.GetModifications old np = .ok mods) :
    Patch p content np =
      (match applyModifications mods content with
       | .error e => .error e
       | .ok modified =>
         if modified.length ≠ content.length then .error lengthMismatchMsg
         else .ok (.patched modified)) := by
  unfold Patch
  rw [hdet]
  simp only [if_neg hne, hmods]

/-- C1: with detection succeeding and a real provider change requested, an
occurrence-count mismatch at any rule (against the in-memory buffer as the
rule loop sees it) makes `Patch` return the occurrence-mismatch error with
the on-disk content byte-identical to the pre-call content; and the file is
mutated only if every rule's observed count equals its expected count. -/
theorem claimC1 (p : Patchable) (content : List Nat)
    (newProvider old : Provider) (mods : List Modification)
    (hdet : determineCurrentlyUsedProvider content p.GetFingerprints = (old, none))
    (hne : newProvider ≠ old)
    (hmods : p.GetModifications old newProvider = .ok mods) :
    (countsOk mods content = false →
      Patch p content newProvider = .error occurrenceMismatchMsg ∧
      patchedContent p content newProvider = content) ∧
    (patchedContent p content newProvider ≠ content →
      countsOk mods content = true) := by
  have hP := Patch_reduce p content newProvider old mods hdet hne hmods
  cases happ : applyModifications mods content with
  | error e =>
    obtain ⟨rfl, hco⟩ := applyModifications_error_eq _ _ _ happ
    rw [happ] at hP
    have hErr : Patch p content newProvider = .error occurrenceMismatchMsg := hP
    have hSame : patchedContent p content newProvider = content := by
      unfold patchedContent
      rw [hErr]
    exact ⟨fun _ => ⟨hErr, hSame⟩, fun hmut => absurd hSame hmut⟩
  | ok modified =>
    have hok : countsOk mods content = true :=
      (countsOk_true_iff _ _).mpr ⟨_, happ⟩
    refine ⟨fun hfalse => ?_, fun _ => hok⟩
    rw [hok] at hfalse
    cases hfalse

/-- C2: whatever `Patch` does, the on-disk content keeps its original
length; and if the rule loop succeeds but the modified buffer's length
differs from the original, `Patch` returns the length-invariant error and
nothing is written. -/
theorem claimC2 (p : Patchable) (content : List Nat) (newProvider : Provider) :
    (patchedContent p content newProvider).length = content.length ∧
    (∀ (old : Provider) (mods : List Modification) (modified : List Nat),
      determineCurrentlyUsedProvider content p.GetFingerprints = (old, none) →
      newProvider ≠ old →
      p.GetModifications old newProvider = .ok mods →
      applyModifications mods content = .ok modified →
      modified.length ≠ content.length →
      Patch p content newProvider = .error lengthMismatchMsg ∧
      patchedContent p content newProvider = content) := by
  constructor
  · cases hp : Patch p content newProvider with
    | error e => unfold patchedContent; rw [hp]
    | ok o =>
      cases o with
      | noop => unfold patchedContent; rw [hp]
      | patched m =>
        have := Patch_patched_length p content newProvider m hp
        unfold patchedContent
        rw [hp]
        exact this
  · intro old mods modified hdet hne hmods happ hlen
    have hP := Patch_reduce p content newProvider old mods hdet hne hmods
    rw [happ] at hP
    simp only [if_pos hlen] at hP
    exact ⟨hP, by unfold patchedContent; rw [hP]⟩

/-- Detection fails with the unknown-provider sentinel and message when no
fingerprint in the table matches the buffer. -/
theorem determine_none (b : List Nat) (l : List (Provider × (List Nat → Bool)))
    (hnone : ∀ pr fp, (pr, fp) ∈ l → fp b = false) :
    determineCurrentlyUsedProvider b l = (ProviderUnknown, some unknownProviderMsg) := by
  induction l with
  | nil => rfl
  | cons hd tl ih =>
    obtain ⟨pr, fp⟩ := hd
    have hfp : fp b = false := hnone pr fp (List.mem_cons_self _ _)
    unfold determineCurrentlyUsedProvider
    rw [hfp]
    simp only [Bool.false_eq_true, if_false]
    exact ih (fun pr' fp' h => hnone pr' fp' (List.mem_cons_of_mem _ h))

/-- C4 (amended): when zero fingerprints match, detection returns the
`ProviderUnknown` sentinel together with the unknown/mixed-modifications
error, `Patch` fails with that error, and the file is untouched. (The
ambiguous, more-than-one-match half of the original claim is refuted by
`claimC4_counterexample`: the code returns the first match, not an error.) -/
theorem claimC4 (p : Patchable) (content : List Nat) (newProvider : Provider)
    (hnone : ∀ pr fp, (pr, fp) ∈ p.GetFingerprints → fp content = false) :
    determineCurrentlyUsedProvider content p.GetFingerprints =
      (ProviderUnknown, some unknownProviderMsg) ∧
    Patch p content newProvider = .error unknownProviderMsg ∧
    patchedContent p content newProvider = content := by
  have hdet := determine_none content p.GetFingerprints hnone
  have hErr : Patch p content newProvider = .error unknownProviderMsg := by
    unfold Patch
    rw [hdet]
  exact ⟨hdet, hErr, by unfold patchedContent; rw [hErr]⟩

/-- C6: when the detected provider already equals the requested provider,
`Patch` reports success with a no-op outcome, the file's bytes are
unchanged, and the result does not depend on the modification builder at
all (any patchable with the same fingerprint table gives the same no-op). -/
theorem claimC6 (p : Patchable) (content : List Nat) (newProvider : Provider)
    (hdet : determineCurrentlyUsedProvider content p.GetFingerprints =
      (newProvider, none)) :
    Patch p content newProvider = .ok .noop ∧
    patchedContent p content newProvider = content ∧
    (∀ q : Patchable, q.GetFingerprints = p.GetFingerprints →
      Patch q content newProvider = .ok .noop) := by
  have hP : Patch p content newProvider = .ok .noop := by
    unfold Patch
    rw [hdet]
    simp
  refine ⟨hP, by unfold patchedContent; rw [hP], fun q hq => ?_⟩
  unfold Patch
  rw [hq, hdet]
  simp

/-- A game buffer tainted with one extra copy of the gpcm literal: detection
still sees GameSpy, but the gpcm rule's occurrence count is 2 instead of 1. -/
def c1BadBuf : List Nat :=
  stateBuf .game .gamespy ++ padRight (strBytes "gpcm.gamespy.com") 0 16

/-- Witness for C1 at the game executable: a duplicated gpcm literal makes
`countsOk` fail, `Patch` return the occurrence-mismatch error, and the file
keep its bytes. -/
theorem claimC1_witness :
    countsOk (okMods (gameGetModifications ProviderGameSpy ProviderOpenSpy)) c1BadBuf = false ∧
    Patch GameExecutable c1BadBuf ProviderOpenSpy = .error occurrenceMismatchMsg ∧
    patchedContent GameExecutable c1BadBuf ProviderOpenSpy = c1BadBuf := by
  have hco : countsOk (okMods (gameGetModifications ProviderGameSpy ProviderOpenSpy)) c1BadBuf = false := by
    decide
  have h := claimC1 GameExecutable c1BadBuf ProviderOpenSpy ProviderGameSpy
    (okMods (gameGetModifications ProviderGameSpy ProviderOpenSpy))
    (by decide) (by decide) rfl
  exact ⟨hco, (h.1 hco).1, (h.1 hco).2⟩

/-- A minimal patchable whose single rule pads `[1]` to a two-byte
replacement, violating the length invariant (the real targets never do). -/
def toyPatchable : Patchable :=
  { GetFileName := "toy.bin",
    GetFingerprints := [("A", fun _ => true)],
    GetModifications := fun _ _ =>
      .ok [{ Old := [1], New := [2, 3], Length := 1, Count := 1 }] }

/-- Witness for C2: the toy length-changing rule makes `Patch` return the
length-invariant error and leave the file bytes unchanged. -/
theorem claimC2_witness :
    Patch toyPatchable [1] "B" = .error lengthMismatchMsg ∧
    patchedContent toyPatchable [1] "B" = [1] ∧
    (patchedContent toyPatchable [1] "B").length = [1].length := by
  have h := claimC2 toyPatchable [1] "B"
  have h2 := h.2 "A" [{ Old := [1], New := [2, 3], Length := 1, Count := 1 }] [2, 3]
    rfl (by decide) rfl rfl (by decide)
  exact ⟨h2.1, h2.2, h.1⟩

/-- Witness for C4 (amended): a one-byte buffer matches no fingerprint;
detection yields the Unknown sentinel with the error and the file is
untouched. -/
theorem claimC4_witness :
    determineCurrentlyUsedProvider [0] GameExecutable.GetFingerprints =
      (ProviderUnknown, some unknownProviderMsg) ∧
    Patch GameExecutable [0] ProviderOpenSpy = .error unknownProviderMsg ∧
    patchedContent GameExecutable [0] ProviderOpenSpy = [0] := by
  refine claimC4 GameExecutable [0] ProviderOpenSpy ?_
  intro pr fp h
  simp only [GameExecutable, gameFingerprintTable, gameGetFingerprints, List.map_cons,
    List.map_nil, List.mem_cons, List.not_mem_nil, or_false, Prod.mk.injEq] at h
  rcases h with ⟨_, rfl⟩ | ⟨_, rfl⟩ | ⟨_, rfl⟩ | ⟨_, rfl⟩ <;> decide

/-- A buffer carrying the ridges of both BF2Hub and GameSpy for the game
executable: both fingerprints match, yet detection returns the first match
instead of an error. -/
def ambiguousBuf : List Nat :=
  strBytes "gamespy.com" ++ strBytes "\\drivers\\etc\\hosts" ++
    strBytes "\\drivers\\xtc\\hosts" ++ strBytes "bf2hbc.dll"

/-- Counterexample to C4 as stated: on a buffer matched by two providers'
fingerprints, `determineCurrentlyUsedProvider` does not fail — it returns
the first matching provider (iteration-order dependent in Go), with no
error. -/
theorem claimC4_counterexample :
    Option.map (fun f => f ambiguousBuf)
      (GameExecutable.GetFingerprints.lookup ProviderBF2Hub) = some true ∧
    Option.map (fun f => f ambiguousBuf)
      (GameExecutable.GetFingerprints.lookup ProviderGameSpy) = some true ∧
    determineCurrentlyUsedProvider ambiguousBuf GameExecutable.GetFingerprints =
      (ProviderBF2Hub, none) := by
  refine ⟨?_, ?_, ?_⟩ <;> rfl

/-- Witness for C6: a GameSpy-state buffer patched to GameSpy is a no-op
with unchanged bytes. -/
theorem claimC6_witness :
    Patch GameExecutable (stateBuf .game .gamespy) ProviderGameSpy = .ok .noop ∧
    patchedContent GameExecutable (stateBuf .game .gamespy) ProviderGameSpy =
      stateBuf .game .gamespy := by
  have h := claimC6 GameExecutable (stateBuf .game .gamespy) ProviderGameSpy (by decide)
  exact ⟨h.1, h.2.1⟩

/-- Unfold a successful `patchesTo` check into the corresponding `Patch`
equation. -/
theorem patchesTo_eq (t : PatchTarget) (A B : KnownProvider)
    (h : patchesTo t A B = true) :
    Patch (targetPatchable t) (stateBuf t A) B.name =
      .ok (.patched (stateBuf t B)) := by
  unfold patchesTo at h
  split at h
  · next mid hmid =>
    rw [hmid, eq_of_beq h]
  · cases h

/-- Patching any provider's synthetic state buffer to any other known
provider lands exactly on the other provider's state buffer, for both
targets. -/
theorem patchesTo_all : ∀ (t : PatchTarget) (A B : KnownProvider),
    A ≠ B → patchesTo t A B = true := by decide

/-- C3: for distinct known providers A and B and either patchable target,
patching the synthetic A-state buffer to B succeeds with a written result,
and patching that result back to A reproduces the original buffer byte for
byte. -/
theorem claimC3 (t : PatchTarget) (A B : KnownProvider) (hne : A ≠ B) :
    ∃ mid, Patch (targetPatchable t) (stateBuf t A) B.name = .ok (.patched mid) ∧
      Patch (targetPatchable t) mid A.name = .ok (.patched (stateBuf t A)) :=
  ⟨stateBuf t B, patchesTo_eq t A B (patchesTo_all t A B hne),
    patchesTo_eq t B A (patchesTo_all t B A (fun h => hne h.symm))⟩

/-- Witness for C3: game executable, GameSpy to OpenSpy and back. -/
theorem claimC3_witness :
    ∃ mid, Patch (targetPatchable .game) (stateBuf .game .gamespy)
        KnownProvider.openspy.name = .ok (.patched mid) ∧
      Patch (targetPatchable .game) mid KnownProvider.gamespy.name =
        .ok (.patched (stateBuf .game .gamespy)) :=
  claimC3 .game .gamespy .openspy (by decide)

/-- Equation lemma: an empty pattern is a prefix of anything. -/
theorem hasPrefixB_nil (s : List Nat) : hasPrefixB s [] = true := rfl

/-- Equation lemma: a non-empty pattern is not a prefix of the empty buffer. -/
theorem hasPrefixB_nil_cons (c : Nat) (cs : List Nat) :
    hasPrefixB [] (c :: cs) = false := rfl

/-- Equation lemma: prefix check on two cons cells. -/
theorem hasPrefixB_cons_cons (b c : Nat) (bs cs : List Nat) :
    hasPrefixB (b :: bs) (c :: cs) = (b == c && hasPrefixB bs cs) := rfl

/-- Equation lemma: containment in the empty buffer. -/
theorem containsB_nil (pat : List Nat) : containsB [] pat = pat.isEmpty := rfl

/-- Equation lemma: containment in a cons cell. -/
theorem containsB_cons (b : Nat) (bs pat : List Nat) :
    containsB (b :: bs) pat = (hasPrefixB (b :: bs) pat || containsB bs pat) := rfl

/-- Every list is a prefix of itself extended by anything. -/
theorem hasPrefixB_append_self (p t : List Nat) : hasPrefixB (p ++ t) p = true := by
  induction p with
  | nil => exact hasPrefixB_nil t
  | cons c cs ih =>
    rw [List.cons_append, hasPrefixB_cons_cons]
    simp [ih]

/-- The empty pattern is contained in every buffer. -/
theorem containsB_nil_pat (s : List Nat) : containsB s [] = true := by
  cases s with
  | nil => rfl
  | cons b bs => rfl

/-- Containment is preserved by prepending bytes. -/
theorem containsB_append_left (u s pat : List Nat)
    (h : containsB s pat = true) : containsB (u ++ s) pat = true := by
  induction u with
  | nil => exact h
  | cons a u ih =>
    rw [List.cons_append, containsB_cons, ih]
    simp

/-- A pattern is contained in itself extended by anything. -/
theorem containsB_append_self (r v : List Nat) : containsB (r ++ v) r = true := by
  cases r with
  | nil => exact containsB_nil_pat v
  | cons c cs =>
    rw [List.cons_append, containsB_cons]
    rw [← List.cons_append, hasPrefixB_append_self]
    simp

/-- Every ridge handed to `scatter` sits contiguously somewhere in the
produced buffer. -/
theorem scatter_decomp (rs js : List (List Nat)) (r : List Nat) (hr : r ∈ rs) :
    ∃ u v, scatter rs js = u ++ (r ++ v) := by
  induction rs generalizing js with
  | nil => cases hr
  | cons r' rs ih =>
    rcases List.mem_cons.mp hr with rfl | htl
    · cases js with
      | nil => exact ⟨[], scatter rs [], rfl⟩
      | cons j js => exact ⟨j, scatter rs js, by simp [scatter]⟩
    · cases js with
      | nil =>
        obtain ⟨u, v, huv⟩ := ih [] htl
        exact ⟨r' ++ u, v, by simp [scatter, huv]⟩
      | cons j js =>
        obtain ⟨u, v, huv⟩ := ih js htl
        exact ⟨j ++ (r' ++ u), v, by simp [scatter, huv]⟩

/-- Lemma: `ContainsAll` succeeds exactly when each listed ridge is contained. -/
theorem ContainsAll_eq_true (b : List Nat) (rs : List (List Nat)) :
    ContainsAll b rs = true ↔ ∀ r ∈ rs, containsB b r = true := by
  simp [ContainsAll, List.all_eq_true]

/-- Lemma: `ContainsAll` fails as soon as one listed ridge is absent. -/
theorem ContainsAll_false_of_missing (b : List Nat) (rs : List (List Nat))
    (r : List Nat) (hr : r ∈ rs) (habs : containsB b r = false) :
    ContainsAll b rs = false := by
  cases h : ContainsAll b rs with
  | false => rfl
  | true =>
    have := (ContainsAll_eq_true b rs).mp h r hr
    rw [habs] at this
    cases this

/-- When every table entry's fingerprint matches exactly for key `p`,
detection returns `(p, no error)` regardless of table order. -/
theorem determine_unique (b : List Nat) (tbl : List (Provider × (List Nat → Bool)))
    (p : Provider) (hmem : ∃ fp, (p, fp) ∈ tbl)
    (hiff : ∀ q fp, (q, fp) ∈ tbl → (fp b = true ↔ q = p)) :
    determineCurrentlyUsedProvider b tbl = (p, none) := by
  induction tbl with
  | nil =>
    rcases hmem with ⟨fp, h⟩
    cases h
  | cons hd tl ih =>
    obtain ⟨q, fp⟩ := hd
    by_cases hfp : fp b = true
    · have hq : q = p := (hiff q fp (List.mem_cons_self _ _)).mp hfp
      unfold determineCurrentlyUsedProvider
      rw [hfp]
      simp [hq]
    · have hq : q ≠ p := fun he => hfp ((hiff q fp (List.mem_cons_self _ _)).mpr he)
      rcases hmem with ⟨fp', hmem'⟩
      rcases List.mem_cons.mp hmem' with heq | htl
      · exact absurd (congrArg Prod.fst heq).symm hq
      · unfold determineCurrentlyUsedProvider
        rw [Bool.not_eq_true] at hfp
        rw [hfp]
        simp only [Bool.false_eq_true, if_false]
        exact ih ⟨fp', htl⟩ (fun q' fp'' h => hiff q' fp'' (List.mem_cons_of_mem _ h))

/-- Distinct known providers have distinct provider strings. -/
theorem KnownProvider.name_inj : ∀ a b : KnownProvider, a.name = b.name → a = b := by
  decide

/-- Every fingerprint-table entry of a target is the `ContainsAll` check
over that provider's ridges. -/
theorem table_entries (t : PatchTarget) :
    ∀ q fp, (q, fp) ∈ (targetPatchable t).GetFingerprints →
      ∃ k : KnownProvider, q = k.name ∧ fp = fun b => ContainsAll b (targetRidges t k) := by
  intro q fp h
  cases t with
  | game =>
    simp only [targetPatchable, GameExecutable, gameFingerprintTable, gameGetFingerprints,
      List.map_cons, List.map_nil, List.mem_cons, List.not_mem_nil, or_false,
      Prod.mk.injEq] at h
    rcases h with ⟨rfl, rfl⟩ | ⟨rfl, rfl⟩ | ⟨rfl, rfl⟩ | ⟨rfl, rfl⟩
    · exact ⟨.bf2hub, rfl, rfl⟩
    · exact ⟨.playbf2, rfl, rfl⟩
    · exact ⟨.openspy, rfl, rfl⟩
    · exact ⟨.gamespy, rfl, rfl⟩
  | server =>
    simp only [targetPatchable, ServerExecutable, serverFingerprintTable, serverGetFingerprints,
      List.map_cons, List.map_nil, List.mem_cons, List.not_mem_nil, or_false,
      Prod.mk.injEq] at h
    rcases h with ⟨rfl, rfl⟩ | ⟨rfl, rfl⟩ | ⟨rfl, rfl⟩ | ⟨rfl, rfl⟩
    · exact ⟨.bf2hub, rfl, rfl⟩
    · exact ⟨.playbf2, rfl, rfl⟩
    · exact ⟨.openspy, rfl, rfl⟩
    · exact ⟨.gamespy, rfl, rfl⟩

/-- Every known provider appears in its target's fingerprint table with its
ridge check. -/
theorem table_mem (t : PatchTarget) (k : KnownProvider) :
    ((k.name, fun b => ContainsAll b (targetRidges t k)) :
      Provider × (List Nat → Bool)) ∈ (targetPatchable t).GetFingerprints := by
  cases t <;> cases k <;>
    first
      | exact .head _
      | exact .tail _ (.head _)
      | exact .tail _ (.tail _ (.head _))
      | exact .tail _ (.tail _ (.tail _ (.head _)))

/-- C5: for either target and any known provider P, any buffer built by
inserting P's exact ridge byte-sequences at arbitrary offsets (arbitrary
junk between and around them) that lacks, for every other provider, at
least one distinguishing ridge, is matched by P's fingerprint, by no other
provider's fingerprint, and detection deterministically returns P. -/
theorem claimC5 (t : PatchTarget) (P : KnownProvider) (junks : List (List Nat))
    (hmiss : ∀ Q : KnownProvider, Q ≠ P →
      ∃ r ∈ targetRidges t Q,
        containsB (scatter (targetRidges t P) junks) r = false) :
    ContainsAll (scatter (targetRidges t P) junks) (targetRidges t P) = true ∧
    (∀ Q : KnownProvider, Q ≠ P →
      ContainsAll (scatter (targetRidges t P) junks) (targetRidges t Q) = false) ∧
    determineCurrentlyUsedProvider (scatter (targetRidges t P) junks)
      (targetPatchable t).GetFingerprints = (P.name, none) := by
  have hself : ContainsAll (scatter (targetRidges t P) junks) (targetRidges t P) = true := by
    refine (ContainsAll_eq_true _ _).mpr (fun r hr => ?_)
    obtain ⟨u, v, huv⟩ := scatter_decomp (targetRidges t P) junks r hr
    rw [huv]
    exact containsB_append_left u _ r (containsB_append_self r v)
  have hothers : ∀ Q : KnownProvider, Q ≠ P →
      ContainsAll (scatter (targetRidges t P) junks) (targetRidges t Q) = false := by
    intro Q hQ
    obtain ⟨r, hr, hfalse⟩ := hmiss Q hQ
    exact ContainsAll_false_of_missing _ _ r hr hfalse
  refine ⟨hself, hothers, ?_⟩
  refine determine_unique _ _ _ ⟨_, table_mem t P⟩ ?_
  intro q fp hmem
  obtain ⟨k, rfl, rfl⟩ := table_entries t q fp hmem
  simp only []
  constructor
  · intro htrue
    by_cases hk : k = P
    · rw [hk]
    · rw [hothers k hk] at htrue
      cases htrue
  · intro heq
    rw [KnownProvider.name_inj k P heq]
    exact hself

/-- Witness for C5: game executable, OpenSpy ridges scattered between junk
segments, no other provider's distinguishing ridges present. -/
theorem claimC5_witness :
    ContainsAll (scatter (targetRidges .game .openspy) [[1], [2, 3], [4]])
      (targetRidges .game .openspy) = true ∧
    (∀ Q : KnownProvider, Q ≠ .openspy →
      ContainsAll (scatter (targetRidges .game .openspy) [[1], [2, 3], [4]])
        (targetRidges .game Q) = false) ∧
    determineCurrentlyUsedProvider
      (scatter (targetRidges .game .openspy) [[1], [2, 3], [4]])
      (targetPatchable .game).GetFingerprints = (KnownProvider.openspy.name, none) :=
  claimC5 .game .openspy [[1], [2, 3], [4]] (by decide)

/-- Does a modification-builder result succeed with every rule's padded
`Old` and `New` both exactly `Length` bytes long? -/
def paddedLensOk (e : Except String (List Modification)) : Bool :=
  match e with
  | .ok l =>
    l.all (fun m =>
      ((padRight m.Old 0 m.Length).length == m.Length) &&
      ((padRight m.New 0 m.Length).length == m.Length))
  | .error _ => false

/-- C7: for both targets and every ordered pair of distinct known
providers, the builder succeeds and every generated rule satisfies
`len(pad(old)) = len(pad(new)) = length`. -/
theorem claimC7 : ∀ (t : PatchTarget) (a b : KnownProvider), a ≠ b →
    paddedLensOk ((targetPatchable t).GetModifications a.name b.name) = true := by
  decide

/-- Witness for C7: game executable, GameSpy to OpenSpy. -/
theorem claimC7_witness :
    paddedLensOk ((targetPatchable .game).GetModifications
      KnownProvider.gamespy.name KnownProvider.openspy.name) = true :=
  claimC7 .game .gamespy .openspy (by decide)

/-- The bytes of the numeric placeholder verb. -/
def dBytes : List Nat := strBytes "%d"

/-- The direction-sensitive master-server rule emitted at index 9 of the
game executable's modification list, checked per the code's branch
structure: whenever the old provider is PlayBF2 the rule's old pattern
omits the placeholder and its new pattern includes it; otherwise when the
new provider is PlayBF2 the old pattern includes it and the new omits it;
when neither is PlayBF2 the rule is the symmetric hostname-only
substitution with the placeholder on both sides. -/
def msDirectionOk (old new : KnownProvider) : Bool :=
  match gameGetModifications old.name new.name with
  | .error _ => false
  | .ok l =>
    match l[9]? with
    | none => false
    | some m =>
      if old = .playbf2 then
        !(containsB m.Old dBytes) && containsB m.New dBytes
      else if new = .playbf2 then
        containsB m.Old dBytes && !(containsB m.New dBytes)
      else
        m == { Old := strBytes "%s.ms%d." ++ (gameFingerprintOf old).Hostname,
               New := strBytes "%s.ms%d." ++ (gameFingerprintOf new).Hostname,
               Length := 19, Count := 1 }

/-- C8 (amended): the master-server rule follows the code's branch
conditions — the placeholder-removing pattern is keyed on the old provider
being PlayBF2 alone (regardless of the new provider), then on the new
provider being PlayBF2, and the symmetric placeholder-on-both-sides rule
applies exactly when neither provider is PlayBF2. -/
theorem claimC8 : ∀ old new : KnownProvider, msDirectionOk old new = true := by
  decide

/-- Modelled from the claim's wording for "every other provider pair": the
symmetric hostname-only master-server substitution with the placeholder on
both sides, expected at index 9. -/
def claimedSymmetricMsRule (old new : KnownProvider) : Bool :=
  match gameGetModifications old.name new.name with
  | .ok l =>
    match l[9]? with
    | some m =>
      m == { Old := strBytes "%s.ms%d." ++ (gameFingerprintOf old).Hostname,
             New := strBytes "%s.ms%d." ++ (gameFingerprintOf new).Hostname,
             Length := 19, Count := 1 }
    | none => false
  | _ => false

/-- Counterexample to C8 as stated: the pair (PlayBF2, PlayBF2) falls under
neither of the claim's two guarded clauses ("old is PlayBF2 and new is
not", "new is PlayBF2 and old is not"), so the claim predicts the
symmetric placeholder-on-both-sides rule — but the code keys its first
branch on the old provider alone and emits the placeholder-removing
pattern, whose old side has no placeholder. -/
theorem claimC8_counterexample :
    claimedSymmetricMsRule .playbf2 .playbf2 = false ∧
    msDirectionOk .playbf2 .playbf2 = true := by
  decide

/-- The wait loop performs at most `budget` further polls. -/
theorem waitLoopAux_le (alive : Nat → Nat → Bool) :
    ∀ (budget it : Nat) (pending : List Nat),
      (waitLoopAux alive budget it pending).2 ≤ it + budget := by
  intro budget
  induction budget with
  | zero => intro it pending; simp [waitLoopAux]
  | succ b ih =>
    intro it pending
    unfold waitLoopAux
    by_cases h : pending.isEmpty
    · rw [if_pos h]
      omega
    · rw [if_neg h]
      have := ih (it + 1) (pending.filter (fun pid => alive it pid))
      omega

/-- The wait loop never rewinds the iteration counter. -/
theorem waitLoopAux_ge (alive : Nat → Nat → Bool) :
    ∀ (budget it : Nat) (pending : List Nat),
      it ≤ (waitLoopAux alive budget it pending).2 := by
  intro budget
  induction budget with
  | zero => intro it pending; simp [waitLoopAux]
  | succ b ih =>
    intro it pending
    unfold waitLoopAux
    by_cases h : pending.isEmpty
    · rw [if_pos h]
    · rw [if_neg h]
      have := ih (it + 1) (pending.filter (fun pid => alive it pid))
      omega

/-- The surviving pending set is exactly the pids found running at every
poll the loop performed. -/
theorem waitLoopAux_fst (alive : Nat → Nat → Bool) :
    ∀ (budget it : Nat) (pending : List Nat),
      (waitLoopAux alive budget it pending).1 =
        pending.filter (fun pid =>
          decide (∀ i, i < (waitLoopAux alive budget it pending).2 →
            (it ≤ i → alive i pid = true))) := by
  intro budget
  induction budget with
  | zero =>
    intro it pending
    simp only [waitLoopAux]
    refine (List.filter_eq_self.mpr (fun pid _ => ?_)).symm
    exact decide_eq_true (fun i h1 h2 => absurd h2 (by omega))
  | succ b ih =>
    intro it pending
    unfold waitLoopAux
    by_cases h : pending.isEmpty
    · rw [if_pos h]
      obtain rfl : pending = [] := List.isEmpty_iff.mp h
      simp
    · rw [if_neg h]
      rw [ih (it + 1) (pending.filter (fun pid => alive it pid)), List.filter_filter]
      apply List.filter_congr
      intro pid _
      have hge := waitLoopAux_ge alive b (it + 1) (pending.filter (fun pid => alive it pid))
      cases ha : alive it pid with
      | false =>
        simp only [Bool.and_false]
        refine (decide_eq_false (fun hall => ?_)).symm
        have := hall it (by omega) (le_refl it)
        rw [ha] at this
        cases this
      | true =>
        simp only [Bool.and_true]
        refine decide_eq_decide.mpr ?_
        constructor
        · intro hall i hlt hle
          rcases Nat.eq_or_lt_of_le hle with rfl | hlt2
          · exact ha
          · exact hall i hlt hlt2
        · intro hall i hlt hle
          exact hall i hlt (by omega)

/-- C9: the quiescence wait polls at most five times; the surviving pending
set is exactly the pids still found running at every performed poll (each
poll removes the pids no longer found); the wait succeeds exactly when the
pending set empties by the final poll, and otherwise reports the timeout
error carrying the surviving pids. (The fixed 1-second sleep between polls
is real time, outside this model.) -/
theorem claimC9 (alive : Nat → Nat → Bool) (pending : List Nat) :
    (waitLoopAux alive 5 0 pending).2 ≤ 5 ∧
    (waitLoopAux alive 5 0 pending).1 =
      pending.filter (fun pid =>
        decide (∀ i, i < (waitLoopAux alive 5 0 pending).2 → alive i pid = true)) ∧
    (waitForProcessesToExit alive pending = .ok () ↔
      (waitLoopAux alive 5 0 pending).1 = []) ∧
    ((waitLoopAux alive 5 0 pending).1 ≠ [] →
      waitForProcessesToExit alive pending = .error (waitLoopAux alive 5 0 pending).1) := by
  refine ⟨waitLoopAux_le alive 5 0 pending, ?_, ?_, ?_⟩
  · rw [waitLoopAux_fst alive 5 0 pending]
    apply List.filter_congr
    intro pid _
    refine decide_eq_decide.mpr ?_
    constructor
    · intro hall i hlt
      exact hall i hlt (Nat.zero_le i)
    · intro hall i hlt _
      exact hall i hlt
  · unfold waitForProcessesToExit
    cases hh : (waitLoopAux alive 5 0 pending).1 with
    | nil => simp [hh]
    | cons a l => simp [hh]
  · intro hne
    unfold waitForProcessesToExit
    cases hh : (waitLoopAux alive 5 0 pending).1 with
    | nil => exact absurd hh hne
    | cons a l => simp [hh]

/-- Witness for C9: process 7 never exits while process 3 has already gone;
after five polls the wait times out with 7 still pending. -/
theorem claimC9_witness :
    waitForProcessesToExit (fun _ pid => pid == 7) [7, 3] = .error [7] ∧
    (waitLoopAux (fun _ pid => pid == 7) 5 0 [7, 3]).2 ≤ 5 := by
  have h := claimC9 (fun _ pid => pid == 7) [7, 3]
  exact ⟨h.2.2.2 (by decide), h.1⟩

/-- C10: for both targets, when the old provider is in the fingerprint
table but the requested new provider is not, `GetModifications` fails, and
the provider name embedded in the message is the old provider's — which is
distinct from the requested new provider's name. -/
theorem claimC10 (old np : Provider)
    (hgOld : (gameGetFingerprints.lookup old).isSome = true)
    (hgNew : gameGetFingerprints.lookup np = none)
    (hsOld : (serverGetFingerprints.lookup old).isSome = true)
    (hsNew : serverGetFingerprints.lookup np = none) :
    gameGetModifications old np =
      .error ("missing fingerprint for new provider: " ++ old) ∧
    serverGetModifications old np =
      .error ("missing fingerprint for new provider: " ++ old) ∧
    old ≠ np := by
  obtain ⟨wg, hwg⟩ := Option.isSome_iff_exists.mp hgOld
  obtain ⟨ws, hws⟩ := Option.isSome_iff_exists.mp hsOld
  refine ⟨?_, ?_, ?_⟩
  · unfold gameGetModifications
    rw [hwg, hgNew]
  · unfold serverGetModifications
    rw [hws, hsNew]
  · intro he
    rw [he, hgNew] at hwg
    cases hwg

/-- Witness for C10: old BF2Hub, new an unconfigured provider string. -/
theorem claimC10_witness :
    gameGetModifications ProviderBF2Hub "NoSuchProvider" =
      .error ("missing fingerprint for new provider: " ++ ProviderBF2Hub) ∧
    serverGetModifications ProviderBF2Hub "NoSuchProvider" =
      .error ("missing fingerprint for new provider: " ++ ProviderBF2Hub) ∧
    ProviderBF2Hub ≠ "NoSuchProvider" :=
  claimC10 ProviderBF2Hub "NoSuchProvider" (by decide) (by decide) (by decide) (by decide)
